import Mathlib

/-!
Shallow embedding of `src/LeadStorm/leadstorm.py`, a four-stage
lead-generation pipeline (Collector → Qualifier → Enricher → Publisher).
Strings are modelled as `List Char`; external services (the Facebook feed,
the OpenAI scoring service, the Hunter.io lookup and the Google Sheets
backend) are modelled as explicit oracle parameters, with `Except`/sum
types for calls that may raise.
-/

namespace LeadStorm

/-- `LEADS_PER_RUN = 10`, the per-run cap (leadstorm.py line 32). -/
def LEADS_PER_RUN : Nat := 10

/-- A lead record.  Fields are accumulated as the lead passes through the
pipeline: the Collector sets the first four, the Qualifier sets `score`,
the Enricher sets `email` and `why_fit`.  `none` models a dict key that
has not been set yet. -/
structure Lead where
  username : List Char
  name : List Char
  post : List Char
  source : List Char
  score : Option Nat := none
  email : Option (List Char) := none
  why_fit : Option (List Char) := none
deriving DecidableEq, Repr

/-- A raw post from the scraped feed.  An empty `text` models a falsy
(`None` or `""`) `post['text']`; an empty `username` models a falsy
`post['username']`; `name := none` models an absent `name` key. -/
structure Post where
  text : List Char
  username : List Char
  name : Option (List Char)
deriving DecidableEq, Repr

/-- Python `s.lower()` on our character-list strings. -/
def lowerStr (s : List Char) : List Char := s.map Char.toLower

/-- Python's substring test `needle in hay` on our character-list
strings. -/
def substrOf (needle hay : List Char) : Bool := decide (needle <:+: hay)

/-- The Collector's filter (line 44):
`post['text'] and target_audience.lower() in post['text'].lower()`. -/
def postMatches (audience : List Char) (p : Post) : Bool :=
  !p.text.isEmpty && substrOf (lowerStr audience) (lowerStr p.text)

/-- The lead dict built at lines 45–50: `post['username'] or "unknown"`,
`post.get('name', 'Unknown User')`, the raw text, and the source label. -/
def mkLead (p : Post) : Lead :=
  { username := if p.username.isEmpty then "unknown".data else p.username
    name := p.name.getD "Unknown User".data
    post := p.text
    source := "Facebook".data }

/-- The Collector's loop (lines 43–53): append each matching post's lead,
and break as soon as the accumulated list reaches `LEADS_PER_RUN * 2`
(the break test runs at the end of every iteration). -/
def scrapeGo (audience : List Char) : List Post → List Lead → List Lead
  | [], leads => leads
  | p :: rest, leads =>
    let leads' := if postMatches audience p then leads ++ [mkLead p] else leads
    if LEADS_PER_RUN * 2 ≤ leads'.length then leads'
    else scrapeGo audience rest leads'

/-- `scrape_public_fb_leads` (lines 35–60).  `fetchOk = false` models the
whole-stage `except` path (any retrieval failure returns `[]`); otherwise
the loop runs over the fetched posts. -/
def scrape_public_fb_leads (fetchOk : Bool) (audience : List Char)
    (posts : List Post) : List Lead :=
  if fetchOk then scrapeGo audience posts [] else []

/-- Python `str.isdigit()` restricted to ASCII: nonempty and all digits. -/
def pyIsDigit (s : List Char) : Bool := !s.isEmpty && s.all Char.isDigit

/-- Decimal value of a digit string, as Python `int` computes it. -/
def digitsToNat (s : List Char) : Nat :=
  s.foldl (fun acc c => acc * 10 + (c.toNat - 48)) 0

/-- The Qualifier's score parsing (line 80):
`int(raw_score) if raw_score.isdigit() else 0`. -/
def parseScore (s : List Char) : Nat :=
  if pyIsDigit s then digitsToNat s else 0

/-- The score obtained for the `i`-th scoring call (lines 72–83): the
reply parsed on success, `0` when the call raises (the per-lead
`except` path). -/
def scoreAt (oracle : Nat → Except Unit (List Char)) (i : Nat) : Nat :=
  match oracle i with
  | Except.ok r => parseScore r
  | Except.error _ => 0

/-- `lead['score'] = score` (line 85): in-place mutation as a functional
update. -/
def setScore (l : Lead) (s : Nat) : Lead := { l with score := some s }

/-- Forget the `score` field; used to compare leads modulo the
Qualifier's in-place mutation. -/
def clearScore (l : Lead) : Lead := { l with score := none }

/-- The Qualifier's loop (lines 70–92): score the lead at index `i`,
keep it (with its score set) when the score is at least 5, and break as
soon as the kept list reaches `LEADS_PER_RUN` (the break test runs at
the end of every iteration). -/
def qualifyGo (oracle : Nat → Except Unit (List Char)) :
    List Lead → Nat → List Lead → List Lead
  | [], _, qualified => qualified
  | lead :: rest, i, qualified =>
    let s := scoreAt oracle i
    let qualified' :=
      if 5 ≤ s then qualified ++ [setScore lead s] else qualified
    if LEADS_PER_RUN ≤ qualified'.length then qualified'
    else qualifyGo oracle rest (i + 1) qualified'

/-- `qualify_leads` (lines 62–99).  `clientOk = false` models the
whole-stage `except` path (e.g. client construction failure), which
returns `[]`; otherwise the loop runs from an empty accumulator. -/
def qualify_leads (clientOk : Bool) (oracle : Nat → Except Unit (List Char))
    (leads : List Lead) : List Lead :=
  if clientOk then qualifyGo oracle leads 0 [] else []

/-- All qualifying leads (score at least 5) of the input, in order, with
their scores set, starting the call counter at `i`; the cap-free
companion of `qualifyGo` used to characterise it. -/
def qualifiedAll (oracle : Nat → Except Unit (List Char)) :
    List Lead → Nat → List Lead
  | [], _ => []
  | lead :: rest, i =>
    if 5 ≤ scoreAt oracle i then
      setScore lead (scoreAt oracle i) :: qualifiedAll oracle rest (i + 1)
    else qualifiedAll oracle rest (i + 1)

/-- Outcome of one Hunter.io lookup call (line 109): `ok e` is a response
whose `data.email` chain yields `e` (`none` when the field is absent),
`raise` models `requests.get(...)` or `.json()` raising. -/
inductive LookupResult where
  | ok (email : Option (List Char))
  | raise
deriving DecidableEq, Repr

/-- `why_fit` text (line 111): `f"Post: {lead['post'][:50]}..."`. -/
def whyFitText (post : List Char) : List Char :=
  "Post: ".data ++ post.take 50 ++ "...".data

/-- In-place enrichment of one lead (lines 110–111): the email field
becomes the lookup result or the `"N/A"` placeholder, and `why_fit` is
set from the post excerpt. -/
def enrichLead (l : Lead) (e : Option (List Char)) : Lead :=
  { l with email := some (e.getD "N/A".data),
           why_fit := some (whyFitText l.post) }

/-- Enrichment of one lead by the `i`-th lookup when that lookup does not
raise; identity otherwise. -/
def enrichOk (oracle : Nat → LookupResult) (i : Nat) (l : Lead) : Lead :=
  match oracle i with
  | LookupResult.ok e => enrichLead l e
  | LookupResult.raise => l

/-- Every lead enriched by its own lookup, call counter starting at `i`:
the exception-free companion of `enrichGo`. -/
def enrichAll (oracle : Nat → LookupResult) : List Lead → Nat → List Lead
  | [], _ => []
  | l :: rest, i => enrichOk oracle i l :: enrichAll oracle rest (i + 1)

/-- The Enricher's loop with its whole-stage `except` (lines 103–122):
each lead is mutated in place by its lookup; when a lookup raises, the
outer handler returns the input list object, i.e. the already-mutated
leads followed by the untouched remainder. -/
def enrichGo (oracle : Nat → LookupResult) : List Lead → Nat → List Lead
  | [], _ => []
  | l :: rest, i =>
    match oracle i with
    | LookupResult.ok e => enrichLead l e :: enrichGo oracle rest (i + 1)
    | LookupResult.raise => l :: rest

/-- `enrich_leads` (lines 101–122), starting the call counter at 0. -/
def enrich_leads (oracle : Nat → LookupResult) (leads : List Lead) :
    List Lead :=
  enrichGo oracle leads 0

/-- Column header row the DataFrame produces for fully-processed leads. -/
def headerRow : List (List Char) :=
  ["username".data, "name".data, "post".data, "source".data,
   "score".data, "email".data, "why_fit".data]

/-- One spreadsheet row per lead (cell rendering of optional fields is
abstracted by their defaults; only row structure matters here). -/
def leadRow (l : Lead) : List (List Char) :=
  [l.username, l.name, l.post, l.source,
   (Nat.repr (l.score.getD 0)).data,
   l.email.getD "N/A".data,
   l.why_fit.getD [] ]

/-- Header of the placeholder DataFrame built at line 137. -/
def placeholderHeader : List (List Char) :=
  ["name".data, "email".data, "why_fit".data]

/-- The single placeholder row written for an empty lead list (line 137). -/
def placeholderRow : List (List Char) :=
  ["No leads found".data, "N/A".data, "Try a different audience".data]

/-- The rows passed to `sheet.update` (lines 135–138): the DataFrame's
column row followed by its value rows; an empty lead list is replaced by
the one-row placeholder frame. -/
def rowsFor (leads : List Lead) : List (List (List Char)) :=
  if leads.isEmpty then [placeholderHeader, placeholderRow]
  else headerRow :: leads.map leadRow

/-- The returned share URL (line 142). -/
def urlFor (sheetId : List Char) : List Char :=
  "https://docs.google.com/spreadsheets/d/".data ++ sheetId

/-- `upload_to_sheets` (lines 124–145).  `backendErr = some e` models any
of the sheet-backend operations raising `e`; the `except` handler logs
and re-raises (line 145), so the error propagates unchanged.  On success
the function has written `rowsFor leads` and returns the URL. -/
def upload_to_sheets (backendErr : Option (List Char)) (leads : List Lead)
    (sheetId : List Char) :
    Except (List Char) (List (List (List Char)) × List Char) :=
  match backendErr with
  | some e => Except.error e
  | none => Except.ok (rowsFor leads, urlFor sheetId)

/-! Concrete sample data used by witnesses and counterexamples. -/

/-- A sample collector-stage lead. -/
def leadA : Lead :=
  { username := "alice".data, name := "Alice A".data,
    post := "bakery owners unite".data, source := "Facebook".data }

/-- A second sample collector-stage lead. -/
def leadB : Lead :=
  { username := "bob".data, name := "Bob B".data,
    post := "we sell to bakery owners".data, source := "Facebook".data }

/-- A sample matching post. -/
def samplePost : Post :=
  { text := "Bakery Owners here, looking for marketing".data,
    username := "carol".data, name := some "Carol C".data }

/-- A scoring oracle that always replies `"7"`. -/
def oracle7 : Nat → Except Unit (List Char) :=
  fun _ => Except.ok "7".data

/-- A scoring oracle that always replies `"11"`. -/
def oracle11 : Nat → Except Unit (List Char) :=
  fun _ => Except.ok "11".data

/-- A lookup oracle whose first call succeeds and whose second raises. -/
def lookupOkThenRaise : Nat → LookupResult :=
  fun i => if i = 0 then LookupResult.ok (some "alice@example.com".data)
           else LookupResult.raise

/-- A lookup oracle that always raises. -/
def lookupAlwaysRaise : Nat → LookupResult := fun _ => LookupResult.raise

/-- A lookup oracle that always answers with no email field. -/
def lookupNoEmail : Nat → LookupResult := fun _ => LookupResult.ok none

/-! Helper lemmas about the Qualifier loop. -/

/-- The capped loop equals the cap-free qualifying list truncated at the
cap, whenever the accumulator is still below the cap. -/
theorem qualifyGo_eq_take (oracle : Nat → Except Unit (List Char)) :
    ∀ (leads : List Lead) (i : Nat) (acc : List Lead),
      acc.length < LEADS_PER_RUN →
      qualifyGo oracle leads i acc =
        (acc ++ qualifiedAll oracle leads i).take LEADS_PER_RUN := by
  intro leads
  induction leads with
  | nil =>
    intro i acc hacc
    simp [qualifyGo, qualifiedAll, List.take_of_length_le (Nat.le_of_lt hacc)]
  | cons lead rest ih =>
    intro i acc hacc
    simp only [qualifyGo, qualifiedAll]
    by_cases hs : 5 ≤ scoreAt oracle i
    · simp only [if_pos hs]
      by_cases hcap :
          LEADS_PER_RUN ≤ (acc ++ [setScore lead (scoreAt oracle i)]).length
      · simp only [if_pos hcap]
        have hlen :
            (acc ++ [setScore lead (scoreAt oracle i)]).length = LEADS_PER_RUN := by
          simp only [List.length_append, List.length_singleton] at hcap ⊢
          omega
        rw [show acc ++ setScore lead (scoreAt oracle i) ::
              qualifiedAll oracle rest (i + 1) =
            (acc ++ [setScore lead (scoreAt oracle i)]) ++
              qualifiedAll oracle rest (i + 1) from by simp]
        rw [← hlen, List.take_left]
      · simp only [if_neg hcap]
        rw [ih (i + 1) _ (Nat.lt_of_not_le hcap)]
        simp [List.append_assoc]
    · simp only [if_neg hs]
      have hno : ¬ LEADS_PER_RUN ≤ acc.length := Nat.not_le_of_lt hacc
      simp only [if_neg hno]
      exact ih (i + 1) acc hacc

/-- Every member of the cap-free qualifying list is an input lead whose
score, from its own scoring call, is at least 5. -/
theorem mem_qualifiedAll (oracle : Nat → Except Unit (List Char)) :
    ∀ (leads : List Lead) (i : Nat) (l : Lead),
      l ∈ qualifiedAll oracle leads i →
      ∃ l₀ ∈ leads, ∃ j, 5 ≤ scoreAt oracle j ∧ l = setScore l₀ (scoreAt oracle j) := by
  intro leads
  induction leads with
  | nil => intro i l h; simp [qualifiedAll] at h
  | cons lead rest ih =>
    intro i l h
    simp only [qualifiedAll] at h
    by_cases hs : 5 ≤ scoreAt oracle i
    · rw [if_pos hs] at h
      rcases List.mem_cons.mp h with h | h
      · exact ⟨lead, List.mem_cons_self _ _, i, hs, h⟩
      · rcases ih (i + 1) l h with ⟨l₀, hl₀, j, hj, hl⟩
        exact ⟨l₀, List.mem_cons_of_mem _ hl₀, j, hj, hl⟩
    · rw [if_neg hs] at h
      rcases ih (i + 1) l h with ⟨l₀, hl₀, j, hj, hl⟩
      exact ⟨l₀, List.mem_cons_of_mem _ hl₀, j, hj, hl⟩

/-- Modulo the score mutation, the cap-free qualifying list is a
subsequence of the input. -/
theorem qualifiedAll_sublist (oracle : Nat → Except Unit (List Char)) :
    ∀ (leads : List Lead) (i : Nat),
      List.Sublist ((qualifiedAll oracle leads i).map clearScore)
        (leads.map clearScore) := by
  intro leads
  induction leads with
  | nil => intro i; simp [qualifiedAll]
  | cons lead rest ih =>
    intro i
    simp only [qualifiedAll, List.map_cons]
    by_cases hs : 5 ≤ scoreAt oracle i
    · rw [if_pos hs]
      simp only [List.map_cons]
      exact List.Sublist.cons₂ _ (ih (i + 1))
    · rw [if_neg hs]
      exact List.Sublist.cons _ (ih (i + 1))

/-- The success path of `qualify_leads` is the loop from an empty
accumulator. -/
theorem qualify_leads_true (oracle : Nat → Except Unit (List Char))
    (leads : List Lead) :
    qualify_leads true oracle leads = qualifyGo oracle leads 0 [] := rfl

/-- The whole-stage failure path of `qualify_leads` returns `[]`. -/
theorem qualify_leads_false (oracle : Nat → Except Unit (List Char))
    (leads : List Lead) : qualify_leads false oracle leads = [] := rfl

/-- C1: for every input lead list, the Qualifier's output is a subset of
its input (each output lead is an input lead with a score field set) in
which every lead's score is at least 5, and the output never contains
more than the per-run cap of `LEADS_PER_RUN = 10` leads. -/
theorem qualifier_cap_and_subset (ok : Bool)
    (oracle : Nat → Except Unit (List Char)) (leads : List Lead) :
    (qualify_leads ok oracle leads).length ≤ LEADS_PER_RUN ∧
    ∀ l ∈ qualify_leads ok oracle leads,
      ∃ l₀ ∈ leads, ∃ s, 5 ≤ s ∧ l = setScore l₀ s := by
  cases ok with
  | false => simp [qualify_leads_false]
  | true =>
    have heq : qualify_leads true oracle leads =
        (qualifiedAll oracle leads 0).take LEADS_PER_RUN := by
      rw [qualify_leads_true, qualifyGo_eq_take oracle leads 0 [] (by decide)]
      simp
    constructor
    · rw [heq]; exact List.length_take_le _ _
    · intro l hl
      rw [heq] at hl
      have hmem := List.take_subset _ _ hl
      rcases mem_qualifiedAll oracle leads 0 l hmem with ⟨l₀, hl₀, j, hj, rfl⟩
      exact ⟨l₀, hl₀, scoreAt oracle j, hj, rfl⟩

/-- C1 witness: concrete instantiation at one lead and the constant
reply `"7"`. -/
theorem qualifier_cap_and_subset_witness :
    (qualify_leads true oracle7 [leadA]).length ≤ LEADS_PER_RUN ∧
    ∃ l₀ ∈ [leadA], ∃ s, 5 ≤ s ∧ setScore leadA 7 = setScore l₀ s :=
  ⟨(qualifier_cap_and_subset true oracle7 [leadA]).1,
   (qualifier_cap_and_subset true oracle7 [leadA]).2 (setScore leadA 7)
     (by decide)⟩

/-- C2: the Qualifier's score parsing maps `"7"` to 7 and maps `"abc"`,
the empty string and `"-3"` to 0, since only plain non-negative integer
literals parse. -/
theorem score_parse_examples :
    parseScore "7".data = 7 ∧ parseScore "abc".data = 0 ∧
    parseScore "".data = 0 ∧ parseScore "-3".data = 0 := by decide

/-- C7 counterexample: with a scoring reply of `"11"`, the emitted lead
carries score 11, outside the claimed 0–10 range — the code never clamps
a parsed score to 10. -/
theorem score_range_cex :
    qualify_leads true oracle11 [leadA] = [setScore leadA 11] ∧
    (setScore leadA 11).score = some 11 ∧ ¬ (11 ≤ 10) := by decide

/-- C7 amended: every lead emitted by the Qualifier carries an integer
score that is at least 5; the score is moreover at most 10 whenever
every scoring reply parses to at most 10 (the code itself enforces no
upper bound). -/
theorem qualifier_score_bounds (ok : Bool)
    (oracle : Nat → Except Unit (List Char)) (leads : List Lead) :
    (∀ l ∈ qualify_leads ok oracle leads, ∃ s, l.score = some s ∧ 5 ≤ s) ∧
    ((∀ i, scoreAt oracle i ≤ 10) →
      ∀ l ∈ qualify_leads ok oracle leads,
        ∃ s, l.score = some s ∧ 5 ≤ s ∧ s ≤ 10) := by
  have key : ∀ l ∈ qualify_leads ok oracle leads,
      ∃ j, 5 ≤ scoreAt oracle j ∧ l.score = some (scoreAt oracle j) := by
    cases ok with
    | false => intro l hl; simp [qualify_leads_false] at hl
    | true =>
      intro l hl
      rw [qualify_leads_true, qualifyGo_eq_take oracle leads 0 [] (by decide)] at hl
      simp only [List.nil_append] at hl
      have hmem := List.take_subset _ _ hl
      rcases mem_qualifiedAll oracle leads 0 l hmem with ⟨l₀, _, j, hj, rfl⟩
      exact ⟨j, hj, rfl⟩
  constructor
  · intro l hl
    rcases key l hl with ⟨j, hj, hsc⟩
    exact ⟨_, hsc, hj⟩
  · intro hb l hl
    rcases key l hl with ⟨j, hj, hsc⟩
    exact ⟨_, hsc, hj, hb j⟩

/-- C7 amended witness: concrete instantiation at one lead and the
constant reply `"7"`, whose parses are all at most 10. -/
theorem qualifier_score_bounds_witness :
    ∃ s, (setScore leadA 7).score = some s ∧ 5 ≤ s ∧ s ≤ 10 :=
  (qualifier_score_bounds true oracle7 [leadA]).2
    (fun i => by show parseScore "7".data ≤ 10; decide)
    (setScore leadA 7) (by decide)

/-- C10: the Qualifier's output preserves input order — modulo the score
mutation it is a subsequence of the input — and equals the qualifying
leads of the input truncated at the cap, i.e. the qualifiers of the
shortest input prefix containing cap-many of them. -/
theorem qualifier_order_shortest (oracle : Nat → Except Unit (List Char))
    (leads : List Lead) :
    qualify_leads true oracle leads =
      (qualifiedAll oracle leads 0).take LEADS_PER_RUN ∧
    List.Sublist ((qualify_leads true oracle leads).map clearScore)
      (leads.map clearScore) := by
  have heq : qualify_leads true oracle leads =
      (qualifiedAll oracle leads 0).take LEADS_PER_RUN := by
    rw [qualify_leads_true, qualifyGo_eq_take oracle leads 0 [] (by decide)]
    simp
  refine ⟨heq, ?_⟩
  rw [heq]
  exact List.Sublist.trans
    (List.Sublist.map clearScore (List.take_sublist _ _))
    (qualifiedAll_sublist oracle leads 0)

/-! Helper lemmas about the Collector loop. -/

/-- The capped scrape loop equals the matching posts' leads truncated at
`LEADS_PER_RUN * 2`, whenever the accumulator is still below that cap. -/
theorem scrapeGo_eq_take (audience : List Char) :
    ∀ (posts : List Post) (acc : List Lead),
      acc.length < LEADS_PER_RUN * 2 →
      scrapeGo audience posts acc =
        (acc ++ (posts.filter (postMatches audience)).map mkLead).take
          (LEADS_PER_RUN * 2) := by
  intro posts
  induction posts with
  | nil =>
    intro acc hacc
    simp [scrapeGo, List.take_of_length_le (Nat.le_of_lt hacc)]
  | cons p rest ih =>
    intro acc hacc
    simp only [scrapeGo]
    by_cases hm : postMatches audience p
    · simp only [if_pos hm, List.filter_cons_of_pos hm, List.map_cons]
      by_cases hcap : LEADS_PER_RUN * 2 ≤ (acc ++ [mkLead p]).length
      · simp only [if_pos hcap]
        have hlen : (acc ++ [mkLead p]).length = LEADS_PER_RUN * 2 := by
          simp only [List.length_append, List.length_singleton] at hcap ⊢
          omega
        rw [show acc ++ mkLead p :: (rest.filter (postMatches audience)).map mkLead =
            (acc ++ [mkLead p]) ++ (rest.filter (postMatches audience)).map mkLead
            from by simp]
        rw [← hlen, List.take_left]
      · simp only [if_neg hcap]
        rw [ih _ (Nat.lt_of_not_le hcap)]
        simp [List.append_assoc]
    · simp only [if_neg hm, List.filter_cons_of_neg hm]
      have hno : ¬ LEADS_PER_RUN * 2 ≤ acc.length := Nat.not_le_of_lt hacc
      simp only [if_neg hno]
      exact ih acc hacc

/-- C8: for every audience string, the Collector returns at most
`2 × LEADS_PER_RUN` leads, every returned lead's post case-insensitively
contains the audience string, and on the success path the loop stops
early once the cap is reached — the output is exactly the matching
posts' leads truncated at the cap. -/
theorem collector_cap_and_match (fetchOk : Bool) (audience : List Char)
    (posts : List Post) :
    (scrape_public_fb_leads fetchOk audience posts).length ≤ LEADS_PER_RUN * 2 ∧
    (∀ l ∈ scrape_public_fb_leads fetchOk audience posts,
      substrOf (lowerStr audience) (lowerStr l.post) = true) ∧
    scrape_public_fb_leads true audience posts =
      ((posts.filter (postMatches audience)).map mkLead).take
        (LEADS_PER_RUN * 2) := by
  have heq : scrape_public_fb_leads true audience posts =
      ((posts.filter (postMatches audience)).map mkLead).take
        (LEADS_PER_RUN * 2) := by
    show scrapeGo audience posts [] = _
    rw [scrapeGo_eq_take audience posts [] (by decide)]
    simp
  have hmemb : ∀ l ∈ scrape_public_fb_leads true audience posts,
      substrOf (lowerStr audience) (lowerStr l.post) = true := by
    intro l hl
    rw [heq] at hl
    have hmem := List.take_subset _ _ hl
    rcases List.mem_map.mp hmem with ⟨p, hp, rfl⟩
    have hmatch : postMatches audience p = true := (List.mem_filter.mp hp).2
    have hsub := (Bool.and_eq_true _ _).mp hmatch
    exact hsub.2
  cases fetchOk with
  | false =>
    refine ⟨by simp [scrape_public_fb_leads], ?_, heq⟩
    intro l hl
    simp [scrape_public_fb_leads] at hl
  | true =>
    refine ⟨?_, hmemb, heq⟩
    rw [heq]
    exact List.length_take_le _ _

/-- C8 witness: concrete instantiation at one matching post. -/
theorem collector_cap_and_match_witness :
    substrOf (lowerStr "bakery".data) (lowerStr (mkLead samplePost).post) = true :=
  (collector_cap_and_match true "bakery".data [samplePost]).2.1
    (mkLead samplePost) (by decide)

/-! Helper lemmas about the Enricher loop. -/

/-- The Enricher loop never changes the list length: on the success path
it maps each lead, on the exception path it returns the tail untouched. -/
theorem enrichGo_length (oracle : Nat → LookupResult) :
    ∀ (leads : List Lead) (i : Nat),
      (enrichGo oracle leads i).length = leads.length := by
  intro leads
  induction leads with
  | nil => intro i; rfl
  | cons l rest ih =>
    intro i
    cases h : oracle i with
    | ok e => simp only [enrichGo, h]; simp [ih (i + 1)]
    | raise => simp only [enrichGo, h]

/-- When no lookup in range raises, the Enricher loop enriches every
lead. -/
theorem enrichGo_all_ok (oracle : Nat → LookupResult) :
    ∀ (leads : List Lead) (i : Nat),
      (∀ j, j < leads.length → oracle (i + j) ≠ LookupResult.raise) →
      enrichGo oracle leads i = enrichAll oracle leads i := by
  intro leads
  induction leads with
  | nil => intro i _; rfl
  | cons l rest ih =>
    intro i h
    have h0 : oracle i ≠ LookupResult.raise := by
      have := h 0 (Nat.succ_pos rest.length)
      simpa using this
    cases hx : oracle i with
    | raise => exact absurd hx h0
    | ok e =>
      have hrec : ∀ j, j < rest.length →
          oracle (i + 1 + j) ≠ LookupResult.raise := by
        intro j hj
        have hh := h (j + 1) (by simpa using Nat.succ_lt_succ hj)
        rw [show i + 1 + j = i + (j + 1) from by omega]
        exact hh
      simp only [enrichGo, enrichAll, enrichOk, hx]
      rw [ih (i + 1) hrec]

/-- When the lookup at relative index `k` raises and the earlier ones do
not, the Enricher loop returns the first `k` leads enriched followed by
the rest of the input untouched. -/
theorem enrichGo_raise (oracle : Nat → LookupResult) :
    ∀ (leads : List Lead) (i k : Nat),
      k < leads.length →
      (∀ j, j < k → oracle (i + j) ≠ LookupResult.raise) →
      oracle (i + k) = LookupResult.raise →
      enrichGo oracle leads i =
        enrichAll oracle (leads.take k) i ++ leads.drop k := by
  intro leads
  induction leads with
  | nil => intro i k hk _ _; simp at hk
  | cons l rest ih =>
    intro i k hk hok hraise
    cases k with
    | zero =>
      have hx : oracle i = LookupResult.raise := by simpa using hraise
      simp only [enrichGo, hx]
      simp [enrichAll]
    | succ k' =>
      have h0 : oracle i ≠ LookupResult.raise := by
        simpa using hok 0 (Nat.succ_pos k')
      cases hx : oracle i with
      | raise => exact absurd hx h0
      | ok e =>
        have hk' : k' < rest.length := by simpa using hk
        have hok' : ∀ j, j < k' →
            oracle (i + 1 + j) ≠ LookupResult.raise := by
          intro j hj
          have hh := hok (j + 1) (by simpa using Nat.succ_lt_succ hj)
          rw [show i + 1 + j = i + (j + 1) from by omega]
          exact hh
        have hraise' : oracle (i + 1 + k') = LookupResult.raise := by
          rw [show i + 1 + k' = i + (k' + 1) from by omega]
          exact hraise
        simp only [enrichGo, hx, List.take_succ_cons, List.drop_succ_cons,
          enrichAll, enrichOk, List.cons_append]
        rw [ih (i + 1) k' hk' hok' hraise']

/-- C3: for every input list, including the empty one, the Enricher
returns a list of the same length — no lead is dropped on the success
path or on the exception path. -/
theorem enricher_preserves_length (oracle : Nat → LookupResult)
    (leads : List Lead) :
    (enrich_leads oracle leads).length = leads.length :=
  enrichGo_length oracle leads 0

/-- C5 counterexample: with the second lookup raising, the whole-stage
exception handler returns a list whose first lead was already mutated in
place — the returned list differs from the leads' state at entry. -/
theorem enricher_unmodified_cex :
    lookupOkThenRaise 1 = LookupResult.raise ∧
    enrich_leads lookupOkThenRaise [leadA, leadB] ≠ [leadA, leadB] := by
  decide

/-- C5 amended: when the lookup at index `k` raises (the earlier ones
succeeding), the exception is caught and the function returns the input
list with the first `k` leads enriched in place and the leads from `k`
on unmodified; the list is returned fully unmodified only when the first
lookup already raises (`k = 0`). -/
theorem enricher_exception_partial (oracle : Nat → LookupResult)
    (leads : List Lead) (k : Nat) (hk : k < leads.length)
    (hok : ∀ j, j < k → oracle j ≠ LookupResult.raise)
    (hraise : oracle k = LookupResult.raise) :
    enrich_leads oracle leads =
      enrichAll oracle (leads.take k) 0 ++ leads.drop k :=
  enrichGo_raise oracle leads 0 k hk
    (fun j hj => by simpa using hok j hj) (by simpa using hraise)

/-- C5 amended witness: concrete two-lead run whose second lookup
raises. -/
theorem enricher_exception_partial_witness :
    enrich_leads lookupOkThenRaise [leadA, leadB] =
      enrichAll lookupOkThenRaise ([leadA, leadB].take 1) 0 ++
        [leadA, leadB].drop 1 :=
  enricher_exception_partial lookupOkThenRaise [leadA, leadB] 1 (by decide)
    (fun j hj => by
      have hj0 : j = 0 := Nat.lt_one_iff.mp hj
      subst hj0
      decide)
    (by decide)

/-- C6 counterexample: a raising lookup call does abort the batch — with
every lookup raising, no lead is enriched at all: the first lead's email
is not set to the `"N/A"` placeholder and the remaining leads are not
processed. -/
theorem enricher_raise_no_placeholder_cex :
    enrich_leads lookupAlwaysRaise [leadA, leadB] = [leadA, leadB] ∧
    leadA.email ≠ some "N/A".data := by decide

/-- C6 amended: a lookup *response* that lacks an email field sets the
lead's email to the `"N/A"` placeholder and processing continues with
the next lead (when no call raises, every lead is enriched); a lookup
call that raises, by contrast, aborts the remaining enrichment. -/
theorem enricher_absent_email_placeholder (oracle : Nat → LookupResult)
    (leads : List Lead)
    (hok : ∀ j, j < leads.length → oracle j ≠ LookupResult.raise) :
    enrich_leads oracle leads = enrichAll oracle leads 0 ∧
    ∀ l : Lead, (enrichLead l none).email = some "N/A".data :=
  ⟨enrichGo_all_ok oracle leads 0 (fun j hj => by simpa using hok j hj),
   fun _ => rfl⟩

/-- C6 amended witness: concrete run whose single lookup returns a
response without an email field. -/
theorem enricher_absent_email_placeholder_witness :
    enrich_leads lookupNoEmail [leadA] = enrichAll lookupNoEmail [leadA] 0 ∧
    (enrichLead leadA none).email = some "N/A".data := by
  have hok : ∀ j, j < ([leadA] : List Lead).length →
      lookupNoEmail j ≠ LookupResult.raise := by
    intro j _ hc
    simp [lookupNoEmail] at hc
  exact ⟨(enricher_absent_email_placeholder lookupNoEmail [leadA] hok).1,
         (enricher_absent_email_placeholder lookupNoEmail [leadA] hok).2 leadA⟩

/-- C4: on the success path, the Publisher writes, for the empty lead
list, a header plus exactly the single placeholder row; and for a
nonempty list of N leads, exactly N + 1 rows — one header row plus one
row per lead. -/
theorem publisher_rows (sheetId : List Char) (leads : List Lead) :
    upload_to_sheets none [] sheetId =
      Except.ok ([placeholderHeader, placeholderRow], urlFor sheetId) ∧
    (leads ≠ [] →
      upload_to_sheets none leads sheetId =
        Except.ok (headerRow :: leads.map leadRow, urlFor sheetId) ∧
      (headerRow :: leads.map leadRow).length = leads.length + 1) := by
  refine ⟨rfl, fun hne => ⟨?_, by simp⟩⟩
  simp only [upload_to_sheets, rowsFor]
  rw [if_neg (by simpa using hne)]

/-- C4 witness: concrete one-lead upload. -/
theorem publisher_rows_witness :
    upload_to_sheets none [leadA] "sheet1".data =
      Except.ok (headerRow :: [leadA].map leadRow, urlFor "sheet1".data) ∧
    (headerRow :: [leadA].map leadRow).length = [leadA].length + 1 :=
  (publisher_rows "sheet1".data [leadA]).2 (by decide)

/-- C9: when any backend operation raises during the Publisher stage,
the exception is re-raised unchanged and propagates to the caller,
unlike the Collector and Qualifier stages, whose whole-stage handlers
swallow the failure and return the empty list as a default value. -/
theorem publisher_error_propagates (e : List Char) (leads : List Lead)
    (sheetId : List Char) (audience : List Char) (posts : List Post)
    (oracle : Nat → Except Unit (List Char)) :
    upload_to_sheets (some e) leads sheetId = Except.error e ∧
    scrape_public_fb_leads false audience posts = [] ∧
    qualify_leads false oracle leads = [] :=
  ⟨rfl, rfl, rfl⟩

end LeadStorm
